import Mathlib

/-!
Shallow embedding of `src/netty/inspect/PProfInspector.cc` (claire-netty).

The inspector's observable behaviour is modelled as pure functions from the
handler's inputs and the session state to a new state together with a list of
`Effect`s (calls into the external collaborators: profiler library, scheduler,
HTTP layer).  Connection identifiers are natural numbers; the two waiter sets
(`connections_` and `heap_connections_` in the source) are `Finset Nat`, the
honest model of `std::set<HttpConnection::Id>`.
-/

namespace PProf

/-- HTTP request methods, as far as the inspector distinguishes them
(`HttpRequest::kGet`, `HttpRequest::kPost`, anything else). -/
inductive HttpMethod where
  | get
  | post
  | other
  deriving DecidableEq, Repr

/-- The two one-shot completion tasks the inspector schedules via
`EventLoop::RunAfter`. -/
inductive TaskKind where
  | profileComplete
  | heapProfileComplete
  deriving DecidableEq, Repr

/-- Observable calls into the external collaborators, in program order. -/
inductive Effect where
  /-- `connection->OnError(HttpResponse::k400BadRequest, msg)`. -/
  | error400 (msg : String)
  /-- `ProfilerStart(file)` was called; `ok` is its return value. -/
  | profilerStartCall (file : String) (ok : Bool)
  /-- `ProfilerRegisterThread()`. -/
  | registerThread
  /-- `LOG(ERROR) << msg`. -/
  | logError (msg : String)
  /-- `EventLoop::CurrentLoopInThisThread()->RunAfter(ms, task)`. -/
  | schedule (ms : Int) (task : TaskKind)
  /-- `ProfilerFlush()`. -/
  | profilerFlush
  /-- `ProfilerStop()`. -/
  | profilerStop
  /-- `HeapProfilerStart(path)`. -/
  | heapProfilerStart (path : String)
  /-- `HeapProfilerStop()`. -/
  | heapProfilerStop
  /-- `server_->SendByHttpConnectionId(conn, body)` / `connection->Send(body)`. -/
  | send (conn : Nat) (body : String)
  /-- `server_->Shutdown(conn)` / `connection->Shutdown()`. -/
  | close (conn : Nat)
  deriving DecidableEq, Repr

/-- The inspector's mutable state: the CPU session's waiter set `connections_`
and the heap session's waiter set `heap_connections_`, both guarded by
`mutex_`. -/
structure InspectorState where
  connections : Finset Nat
  heapConnections : Finset Nat
  deriving DecidableEq

/-- `kProfileFile`. -/
def kProfileFile : String := "profile.dat"

/-- `kDefaultProfileSeconds`. -/
def kDefaultProfileSeconds : Int := 30

/-- `kMaxProfileSeconds`. -/
def kMaxProfileSeconds : Int := 600

/-- Value of a list of decimal digit characters, most significant first
(the accumulation `std::stoi` performs). -/
def digitsToNat (ds : List Char) : Nat :=
  ds.foldl (fun a c => a * 10 + (c.toNat - 48)) 0

/-- `std::stoi(s)` (base 10): skip leading whitespace, optional sign, then a
nonempty run of decimal digits; `none` models a thrown
`std::invalid_argument` (no digits) or `std::out_of_range` (value outside
the 32-bit `int` range). -/
def stoi (s : String) : Option Int :=
  let cs := s.data.dropWhile Char.isWhitespace
  let sign : Int := if cs.head? = some '-' then -1 else 1
  let cs' := if cs.head? = some '-' ∨ cs.head? = some '+' then cs.tail else cs
  let ds := cs'.takeWhile Char.isDigit
  if ds = [] then none
  else
    let v : Int := sign * (digitsToNat ds : Int)
    if v < -(2 ^ 31) ∨ 2 ^ 31 - 1 < v then none else some v

/-- `GetProfileSeconds` (lines 30-61): empty parameter yields the default 30;
otherwise `std::stoi`; a parse failure or a value outside `[0, 600]` falls
through to `return -1`. -/
def GetProfileSeconds (parameter : String) : Int :=
  if parameter = "" then kDefaultProfileSeconds
  else
    match stoi parameter with
    | some s => if s < 0 ∨ kMaxProfileSeconds < s then -1 else s
    | none => -1

/-- `PProfInspector::OnProfile` (lines 96-132).  `startOk` is the return value
`ProfilerStart(kProfileFile)` would produce on this call. -/
def OnProfile (method : HttpMethod) (secondsParam : String) (conn : Nat)
    (startOk : Bool) (st : InspectorState) : InspectorState × List Effect :=
  if method ≠ HttpMethod.get then
    (st, [Effect.error400 "Only accept Get method"])
  else
    let seconds := GetProfileSeconds secondsParam
    if seconds < 0 then
      (st, [Effect.error400 "Invalid Profile Seconds Parameter"])
    else if st.connections = ∅ then
      (⟨insert conn st.connections, st.heapConnections⟩,
        (if startOk then
          [Effect.profilerStartCall kProfileFile true, Effect.registerThread]
        else
          [Effect.profilerStartCall kProfileFile false,
            Effect.logError "ProfilerStart failed"]) ++
        [Effect.schedule (seconds * 1000) TaskKind.profileComplete])
    else
      (⟨insert conn st.connections, st.heapConnections⟩, [])

/-- `PProfInspector::OnProfileComplete` (lines 134-152).  `readResult` is what
`FileUtil::ReadFileToString(kProfileFile, &output)` yields: `none` models a
failed read, which leaves `output` empty. -/
def OnProfileComplete (readResult : Option String) (st : InspectorState) :
    InspectorState × List Effect :=
  let output := readResult.getD ""
  (⟨∅, st.heapConnections⟩,
    [Effect.profilerFlush, Effect.profilerStop] ++
      (st.connections.sort (· ≤ ·)).flatMap
        (fun c => [Effect.send c output, Effect.close c]))

/-- `PProfInspector::OnHeap` (lines 154-173).  `envSet` models whether
`getenv("TCMALLOC_SAMPLE_PARAMETER")` is non-null; `heapSample` is what
`MallocExtension::instance()->GetHeapSample` writes. -/
def OnHeap (envSet : Bool) (heapSample : String) (conn : Nat)
    (st : InspectorState) : InspectorState × List Effect :=
  if !envSet then
    if st.heapConnections = ∅ then
      (⟨st.connections, insert conn st.heapConnections⟩,
        [Effect.heapProfilerStart "/tmp/heap-profile.dat",
          Effect.schedule (30 * 1000) TaskKind.heapProfileComplete])
    else
      (⟨st.connections, insert conn st.heapConnections⟩, [])
  else
    (st, [Effect.send conn heapSample, Effect.close conn])

/-- `PProfInspector::OnHeapProfileComplete` (lines 175-193).  Line 185 reads
`heap_connections.swap(connections_)`; no identifier `heap_connections`
exists (the members are `connections_` and `heap_connections_`, the local is
`connections`), so the closest compiling reading is
`heap_connections_.swap(connections_)`: the heap and CPU waiter sets are
exchanged with each other and the local `connections` set that the broadcast
loop iterates stays empty.  `heapProfile` is the text `GetHeapProfile`
returned. -/
def OnHeapProfileComplete (heapProfile : String) (st : InspectorState) :
    InspectorState × List Effect :=
  let taken : Finset Nat := ∅
  (⟨st.heapConnections, st.connections⟩,
    [Effect.heapProfilerStop] ++
      (taken.sort (· ≤ ·)).flatMap
        (fun c => [Effect.send c heapProfile, Effect.close c]))

/-- `PProfInspector::OnHeapHistogram` (lines 203-217).  `histogram` models the
`int histogram[kMallocHistogramSize]` array filled by `MallocMemoryStats`,
with the fixed size `kMallocHistogramSize` as its length; the loop appends
one line per index `0 ≤ i < kMallocHistogramSize` to the stringstream. -/
def OnHeapHistogram (blocks : Int) (total : Nat) (histogram : List Int)
    (conn : Nat) : List Effect :=
  let header := "blocks " ++ toString blocks ++ "\ntotal " ++ toString total ++ "\n"
  let body := (List.range histogram.length).foldl
    (fun acc i => acc ++ (toString i ++ " " ++ toString (histogram.getD i 0) ++ "\n"))
    header
  [Effect.send conn body, Effect.close conn]

/-- Splitting a character list at every `'+'`; every delimiter yields a token
boundary, so consecutive or leading/trailing delimiters yield empty tokens. -/
def splitPlusAux : List Char → List Char → List String
  | [], acc => [⟨acc.reverse⟩]
  | c :: cs, acc =>
    if c = '+' then ⟨acc.reverse⟩ :: splitPlusAux cs []
    else splitPlusAux cs (c :: acc)

/-- `boost::algorithm::split(addresses, body, boost::is_any_of("+"))`. -/
def splitPlus (s : String) : List String :=
  splitPlusAux s.data []

/-- Value of one hexadecimal digit character, `none` if not a hex digit. -/
def hexDigitVal (c : Char) : Option Nat :=
  if '0' ≤ c ∧ c ≤ '9' then some (c.toNat - 48)
  else if 'a' ≤ c ∧ c ≤ 'f' then some (c.toNat - 87)
  else if 'A' ≤ c ∧ c ≤ 'F' then some (c.toNat - 55)
  else none

/-- Hexadecimal value of a maximal leading run of hex digits. -/
def hexPrefixVal : List Char → Nat
  | [] => 0
  | c :: cs =>
    match hexDigitVal c with
    | some d => d * 16 ^ (cs.takeWhile (fun x => (hexDigitVal x).isSome)).length
        + hexPrefixVal cs
    | none => 0

/-- `strtoull(s, NULL, 16)` cast to `uintptr_t` (64-bit): skip leading
whitespace, optional sign, optional `0x`/`0X` prefix, then a maximal run of
hex digits; no digits yields 0, overflow yields `ULLONG_MAX`, a negative
input is negated modulo 2^64. -/
def strtoull16 (s : String) : Nat :=
  let cs := s.data.dropWhile Char.isWhitespace
  let neg := cs.head? = some '-'
  let cs' := if cs.head? = some '-' ∨ cs.head? = some '+' then cs.tail else cs
  let cs'' :=
    match cs' with
    | '0' :: 'x' :: rest => rest
    | '0' :: 'X' :: rest => rest
    | l => l
  let m := hexPrefixVal cs''
  let m' := if 2 ^ 64 - 1 < m then 2 ^ 64 - 1 else m
  if neg then (2 ^ 64 - m') % 2 ^ 64 else m'

/-- Line 126: the condition of `CHECK(!EventLoop::CurrentLoopInThisThread())`
on the first-joiner path of `OnProfile`.  `currentLoop` models the pointer
`EventLoop::CurrentLoopInThisThread()` returns on the calling thread, `none`
when it is null.  The `CHECK` passes iff the pointer is null. -/
def currentLoopCheckPasses (currentLoop : Option Nat) : Bool :=
  currentLoop.isNone

/-- Line 127: `EventLoop::CurrentLoopInThisThread()->RunAfter(...)`
dereferences the same pointer on the same thread; the dereference is of a
non-null pointer iff the pointer is not null. -/
def runAfterDerefNonNull (currentLoop : Option Nat) : Bool :=
  currentLoop.isSome

/-- One `/pprof/profile` request: the HTTP method, the raw `seconds` query
parameter, the requesting connection's id, and the value `ProfilerStart`
would return if called during this request. -/
structure ProfReq where
  method : HttpMethod
  param : String
  conn : Nat
  startOk : Bool

/-- Fold a sequence of `/pprof/profile` requests (the joins of one window, in
arrival order) through `OnProfile`, collecting every effect in order. -/
def runProfile : InspectorState → List ProfReq → InspectorState × List Effect
  | st, [] => (st, [])
  | st, r :: rs =>
    let p := OnProfile r.method r.param r.conn r.startOk st
    let q := runProfile p.1 rs
    (q.1, p.2 ++ q.2)

/-- Does an effect schedule a completion task via `RunAfter`? -/
def isSchedule : Effect → Bool
  | Effect.schedule _ _ => true
  | _ => false

/-- Is an effect a call of `ProfilerStart`? -/
def isStartCall : Effect → Bool
  | Effect.profilerStartCall _ _ => true
  | _ => false

/-- The bucket lines as the spec describes them: for each index of the fixed
number of buckets, in ascending order, the line `"<bucket-index> <count>\n"`. -/
def histogramLinesSpec (histogram : List Int) : List String :=
  (List.range histogram.length).map
    (fun i => toString i ++ " " ++ toString (histogram.getD i 0) ++ "\n")

/-- The histogram body as the spec describes it: `"blocks <n>\ntotal <n>\n"`
followed by the bucket lines. -/
def histogramBodySpec (blocks : Int) (total : Nat) (histogram : List Int) : String :=
  "blocks " ++ toString blocks ++ "\ntotal " ++ toString total ++ "\n" ++
    String.join (histogramLinesSpec histogram)

/-- One output line of the symbol table as the spec describes it:
`"<token>\t<name>\n"` on successful symbolization of the token's permissively
parsed address, `"<token>\tunknown\n"` otherwise. -/
def symbolLineSpec (symbolize : Nat → Option String) (address : String) : String :=
  match symbolize (strtoull16 address) with
  | some name => address ++ "\t" ++ (name ++ "\n")
  | none => address ++ "\t" ++ "unknown\n"

/-- `PProfInspector::OnSymbol` (lines 237-279).  `symbolize` models the
`Symbolizer::Symbolize` collaborator: the resolved name when resolution
succeeds.  On POST the loop appends to `response.mutable_body()`; the body is
sent once after the loop (the source sends the response without a
`Shutdown`). -/
def OnSymbol (method : HttpMethod) (body : String)
    (symbolize : Nat → Option String) (conn : Nat) : List Effect :=
  if method = HttpMethod.get then
    [Effect.send conn "num_symbols: 1\n", Effect.close conn]
  else if method ≠ HttpMethod.post then
    [Effect.error400 "Only accept Post method"]
  else
    let addresses := splitPlus body
    let out := addresses.foldl
      (fun acc address =>
        acc ++ address ++ "\t" ++
          (match symbolize (strtoull16 address) with
          | some name => name ++ "\n"
          | none => "unknown\n"))
      ""
    [Effect.send conn out]

/-! ### Helper lemmas -/

theorem join_cons (a : String) (l : List String) :
    String.join (a :: l) = a ++ String.join l := by
  apply String.ext
  simp [String.join_eq, String.data_append]

theorem append_empty_str (s : String) : s ++ "" = s := by
  apply String.ext
  simp [String.data_append]

theorem foldl_append_map {α : Type} (f : α → String) (l : List α) :
    ∀ init : String,
      l.foldl (fun acc x => acc ++ f x) init = init ++ String.join (l.map f) := by
  induction l with
  | nil => intro init; simp [String.join, append_empty_str]
  | cons a t ih =>
    intro init
    simp only [List.foldl_cons, List.map_cons, join_cons]
    rw [ih (init ++ f a), String.append_assoc]

theorem count_send_broadcast (out : String) (c : Nat) (l : List Nat)
    (h : l.Nodup) :
    (l.flatMap (fun x => [Effect.send x out, Effect.close x])).count
        (Effect.send c out) =
      if c ∈ l then 1 else 0 := by
  induction l with
  | nil => simp
  | cons a t ih =>
    rcases List.nodup_cons.mp h with ⟨ha, ht⟩
    by_cases hc : c = a
    · subst hc
      have h0 : c ∉ t := ha
      simp [List.count_cons, ih ht, h0]
    · simp [List.count_cons, ih ht, hc, Ne.symm hc]

theorem count_close_broadcast (out : String) (c : Nat) (l : List Nat)
    (h : l.Nodup) :
    (l.flatMap (fun x => [Effect.send x out, Effect.close x])).count
        (Effect.close c) =
      if c ∈ l then 1 else 0 := by
  induction l with
  | nil => simp
  | cons a t ih =>
    rcases List.nodup_cons.mp h with ⟨ha, ht⟩
    by_cases hc : c = a
    · subst hc
      have h0 : c ∉ t := ha
      simp [List.count_cons, ih ht, h0]
    · simp [List.count_cons, ih ht, hc, Ne.symm hc]

theorem send_mem_broadcast (out : String) (c : Nat) (l : List Nat) (h : c ∈ l) :
    Effect.send c out ∈ l.flatMap (fun x => [Effect.send x out, Effect.close x]) :=
  List.mem_flatMap.mpr ⟨c, h, by simp⟩

theorem close_mem_broadcast (out : String) (c : Nat) (l : List Nat) (h : c ∈ l) :
    Effect.close c ∈ l.flatMap (fun x => [Effect.send x out, Effect.close x]) :=
  List.mem_flatMap.mpr ⟨c, h, by simp⟩

theorem onProfile_first (p : String) (conn : Nat) (ok : Bool)
    (st : InspectorState) (hempty : st.connections = ∅)
    (hsec : 0 ≤ GetProfileSeconds p) :
    OnProfile HttpMethod.get p conn ok st =
      (⟨insert conn st.connections, st.heapConnections⟩,
        (if ok then
          [Effect.profilerStartCall kProfileFile true, Effect.registerThread]
        else
          [Effect.profilerStartCall kProfileFile false,
            Effect.logError "ProfilerStart failed"]) ++
        [Effect.schedule (GetProfileSeconds p * 1000) TaskKind.profileComplete]) := by
  have h1 : ¬ GetProfileSeconds p < 0 := not_lt.mpr hsec
  simp [OnProfile, hempty, h1]

theorem onProfile_join (m : HttpMethod) (p : String) (conn : Nat) (ok : Bool)
    (st : InspectorState) (h : st.connections ≠ ∅) :
    (OnProfile m p conn ok st).1.connections ≠ ∅ ∧
    ∀ e ∈ (OnProfile m p conn ok st).2,
      isSchedule e = false ∧ isStartCall e = false := by
  simp only [OnProfile]
  by_cases hm : m = HttpMethod.get
  · subst hm
    rw [if_neg (by simp)]
    by_cases hs : GetProfileSeconds p < 0
    · rw [if_pos hs]
      refine ⟨h, ?_⟩
      intro e he
      simp only [List.mem_singleton] at he
      subst he
      exact ⟨rfl, rfl⟩
    · rw [if_neg hs, if_neg h]
      refine ⟨Finset.insert_ne_empty _ _, ?_⟩
      intro e he
      simp at he
  · rw [if_pos hm]
    refine ⟨h, ?_⟩
    intro e he
    simp only [List.mem_singleton] at he
    subst he
    exact ⟨rfl, rfl⟩

theorem runProfile_join (rs : List ProfReq) :
    ∀ st : InspectorState, st.connections ≠ ∅ →
      ∀ e ∈ (runProfile st rs).2, isSchedule e = false ∧ isStartCall e = false := by
  induction rs with
  | nil =>
    intro st _ e he
    simp [runProfile] at he
  | cons r t ih =>
    intro st h e he
    simp only [runProfile, List.mem_append] at he
    rcases he with he | he
    · exact (onProfile_join r.method r.param r.conn r.startOk st h).2 e he
    · exact ih _ (onProfile_join r.method r.param r.conn r.startOk st h).1 e he

/-! ### Claims -/

/-- **C5.**  On the first-joiner path of `OnProfile`, line 126 asserts
`CHECK(!EventLoop::CurrentLoopInThisThread())` and line 127 immediately
dereferences `EventLoop::CurrentLoopInThisThread()` on the same thread.
Whatever the current-loop pointer is, the `CHECK` passing and the
dereference being of a non-null pointer cannot both hold: the claim that the
`CHECK` never fails and the dereference is never of null is false for every
input, because the assertion contradicts the dereference it guards. -/
theorem check_contradicts_deref (currentLoop : Option Nat) :
    (currentLoopCheckPasses currentLoop && runAfterDerefNonNull currentLoop) =
      false := by
  cases currentLoop <;> rfl

/-- **C6.**  `OnHeap` with the continuous-sampling flag set sends the current
heap sample and closes the connection, touching no session state; with the
flag clear it registers the connection as a heap waiter and, exactly when it
is the first joiner, starts the heap profiler and schedules the heap
completion task after the fixed 30-second window. -/
theorem onHeap_immediate_and_session_paths (heapSample : String) (conn : Nat)
    (st : InspectorState) :
    OnHeap true heapSample conn st =
      (st, [Effect.send conn heapSample, Effect.close conn]) ∧
    OnHeap false heapSample conn st =
      (⟨st.connections, insert conn st.heapConnections⟩,
        if st.heapConnections = ∅ then
          [Effect.heapProfilerStart "/tmp/heap-profile.dat",
            Effect.schedule (30 * 1000) TaskKind.heapProfileComplete]
        else []) := by
  refine ⟨rfl, ?_⟩
  by_cases h : st.heapConnections = ∅ <;> simp [OnHeap, h]

/-- **C1.**  Exhibit of the defect at line 185
(`heap_connections.swap(connections_)`): with the CPU session holding waiter
2 and the heap session holding waiter 1, the heap completion task broadcasts
to and closes nobody — in particular waiter 1 is never sent the profile and
never closed — and it exchanges the two waiter sets instead of resetting the
heap session's set to empty and leaving the CPU session's set unchanged. -/
theorem onHeapProfileComplete_swaps_cpu_set :
    OnHeapProfileComplete "heapdata" ⟨{2}, {1}⟩ =
      (⟨{1}, {2}⟩, [Effect.heapProfilerStop]) ∧
    (OnHeapProfileComplete "heapdata" ⟨{2}, {1}⟩).2.count
        (Effect.send 1 "heapdata") = 0 ∧
    (OnHeapProfileComplete "heapdata" ⟨{2}, {1}⟩).2.count (Effect.close 1) = 0 := by
  have h : OnHeapProfileComplete "heapdata" ⟨{2}, {1}⟩ =
      (⟨{1}, {2}⟩, [Effect.heapProfilerStop]) := by
    simp [OnHeapProfileComplete, Finset.sort_empty]
  refine ⟨h, ?_, ?_⟩ <;> rw [h] <;> rfl

/-- **C9.**  `OnHeapHistogram` sends exactly one body and closes the
connection; that body is `"blocks <n>\ntotal <n>\n"` followed by one
`"<bucket-index> <count>\n"` line per bucket; there are exactly as many
bucket lines as buckets, and the bucket indices are strictly ascending
starting at 0 (the j-th line carries index j). -/
theorem onHeapHistogram_format (blocks : Int) (total : Nat)
    (histogram : List Int) (conn : Nat) :
    OnHeapHistogram blocks total histogram conn =
      [Effect.send conn (histogramBodySpec blocks total histogram),
        Effect.close conn] ∧
    (histogramLinesSpec histogram).length = histogram.length ∧
    List.Chain' (· < ·) (List.range histogram.length) ∧
    (∀ j : Nat, (List.range histogram.length).getD j 0 =
      if j < histogram.length then j else 0) := by
  refine ⟨?_, by simp [histogramLinesSpec], ?_, ?_⟩
  · simp only [OnHeapHistogram]
    rw [foldl_append_map]
    rfl
  · exact (List.pairwise_lt_range _).chain'
  · intro j
    by_cases hj : j < histogram.length
    · rw [List.getD_eq_getElem _ _ (by simpa using hj), if_pos hj]
      simp
    · rw [List.getD_eq_default _ _ (by simpa using Nat.le_of_not_lt hj), if_neg hj]

/-- **C8.**  `OnSymbol` on POST splits the body on `+`, appends for each token
in input order exactly one line — `"<token>\t<name>\n"` when symbolization
of the token's permissively parsed hexadecimal address succeeds,
`"<token>\tunknown\n"` when it does not — and sends the assembled body as a
single send effect after all tokens are processed. -/
theorem onSymbol_post_format (body : String) (symbolize : Nat → Option String)
    (conn : Nat) :
    OnSymbol HttpMethod.post body symbolize conn =
      [Effect.send conn
        (String.join ((splitPlus body).map (symbolLineSpec symbolize)))] ∧
    splitPlus "1a+2b" = ["1a", "2b"] := by
  refine ⟨?_, rfl⟩
  have hfold :
      ∀ (l : List String) (init : String),
        l.foldl
          (fun acc address =>
            acc ++ address ++ "\t" ++
              (match symbolize (strtoull16 address) with
              | some name => name ++ "\n"
              | none => "unknown\n"))
          init = init ++ String.join (l.map (symbolLineSpec symbolize)) := by
    intro l
    induction l with
    | nil => intro init; simp [String.join, append_empty_str]
    | cons a t ih =>
      intro init
      simp only [List.foldl_cons, List.map_cons, join_cons]
      rw [ih]
      rcases hs : symbolize (strtoull16 a) with _ | name
      · simp only [symbolLineSpec, hs]
        simp [String.append_assoc]
        rw [← String.append_assoc "\t" "unknown\n"]
        rfl
      · simp [symbolLineSpec, hs, String.append_assoc]
  simp only [OnSymbol]
  rw [hfold]
  apply congrArg (fun s => [Effect.send conn s])
  apply String.ext
  simp [String.data_append]

/-- **C2.**  Over any window of the CPU session — a first request that finds
the waiter set empty, followed by arbitrarily many further requests before
the completion task fires — exactly one `ProfilerStart` call is made and
exactly one completion task is scheduled, the scheduled delay is the first
joiner's parsed `seconds` value times 1000 ms, and every scheduled timer in
the window carries exactly that delay, so later joiners' `seconds` values
have no effect on the timer. -/
theorem cpu_window_first_joiner_fixes_timer (r : ProfReq) (rs : List ProfReq)
    (st : InspectorState) (hempty : st.connections = ∅)
    (hget : r.method = HttpMethod.get) (hsec : 0 ≤ GetProfileSeconds r.param) :
    (runProfile st (r :: rs)).2.countP isSchedule = 1 ∧
    (runProfile st (r :: rs)).2.countP isStartCall = 1 ∧
    Effect.schedule (GetProfileSeconds r.param * 1000) TaskKind.profileComplete ∈
      (runProfile st (r :: rs)).2 ∧
    (∀ ms task, Effect.schedule ms task ∈ (runProfile st (r :: rs)).2 →
      ms = GetProfileSeconds r.param * 1000 ∧ task = TaskKind.profileComplete) := by
  obtain ⟨m, p, conn, ok⟩ := r
  simp only at hget hsec ⊢
  subst hget
  have hfirst := onProfile_first p conn ok st hempty hsec
  have hne : (⟨insert conn st.connections, st.heapConnections⟩ :
      InspectorState).connections ≠ ∅ := Finset.insert_ne_empty _ _
  have htail := runProfile_join rs ⟨insert conn st.connections, st.heapConnections⟩ hne
  simp only [runProfile]
  rw [hfirst]
  have htailSched : (runProfile
      (⟨insert conn st.connections, st.heapConnections⟩ : InspectorState) rs).2.countP
        isSchedule = 0 :=
    List.countP_eq_zero.mpr (fun e he => by simp [(htail e he).1])
  have htailStart : (runProfile
      (⟨insert conn st.connections, st.heapConnections⟩ : InspectorState) rs).2.countP
        isStartCall = 0 :=
    List.countP_eq_zero.mpr (fun e he => by simp [(htail e he).2])
  refine ⟨?_, ?_, ?_, ?_⟩
  · rw [List.countP_append, htailSched]
    cases ok <;> simp [isSchedule]
  · rw [List.countP_append, htailStart]
    cases ok <;> simp [isStartCall]
  · rw [List.mem_append]
    left
    cases ok <;> simp
  · intro ms task hm
    rw [List.mem_append] at hm
    rcases hm with hm | hm
    · cases ok <;> simp_all
    · have := (htail _ hm).1
      simp [isSchedule] at this

/-- **C3.**  The CPU completion task takes the entire waiter set and resets it
to the empty set, leaves the heap session's waiter set unchanged, sends each
taken waiter the same body — the profile file's contents, or the empty body
when the read fails — exactly once and closes it exactly once, and a
subsequent valid request finds the session idle and starts a fresh window
with its own parsed `seconds` value. -/
theorem onProfileComplete_broadcast_and_reset (readResult : Option String)
    (st : InspectorState) :
    (OnProfileComplete readResult st).1.connections = ∅ ∧
    (OnProfileComplete readResult st).1.heapConnections = st.heapConnections ∧
    (∀ c : Nat,
      (OnProfileComplete readResult st).2.count
          (Effect.send c (readResult.getD "")) =
        if c ∈ st.connections then 1 else 0) ∧
    (∀ c : Nat,
      (OnProfileComplete readResult st).2.count (Effect.close c) =
        if c ∈ st.connections then 1 else 0) ∧
    (∀ (p : String) (conn : Nat) (ok : Bool),
      0 ≤ GetProfileSeconds p →
      OnProfile HttpMethod.get p conn ok (OnProfileComplete readResult st).1 =
        (⟨{conn}, st.heapConnections⟩,
          (if ok then
            [Effect.profilerStartCall kProfileFile true, Effect.registerThread]
          else
            [Effect.profilerStartCall kProfileFile false,
              Effect.logError "ProfilerStart failed"]) ++
          [Effect.schedule (GetProfileSeconds p * 1000) TaskKind.profileComplete])) := by
  refine ⟨rfl, rfl, ?_, ?_, ?_⟩
  · intro c
    have hb := count_send_broadcast (readResult.getD "") c
      (st.connections.sort (· ≤ ·)) (Finset.sort_nodup _ _)
    simp only [OnProfileComplete, List.count_append]
    rw [hb]
    simp [Finset.mem_sort]
  · intro c
    have hb := count_close_broadcast (readResult.getD "") c
      (st.connections.sort (· ≤ ·)) (Finset.sort_nodup _ _)
    simp only [OnProfileComplete, List.count_append]
    rw [hb]
    simp [Finset.mem_sort]
  · intro p conn ok hp
    rw [onProfile_first p conn ok _ rfl hp]
    simp [OnProfileComplete]

/-- Witness for C3: one CPU waiter (connection 5), a heap waiter (connection
9), a successful file read; after completion the CPU set is empty, waiter 5
got the body and a close exactly once, and a fresh request from connection 6
starts a new window. -/
theorem onProfileComplete_broadcast_and_reset_witness :
    (OnProfileComplete (some "body") ⟨{5}, {9}⟩).1.connections = ∅ ∧
    (OnProfileComplete (some "body") ⟨{5}, {9}⟩).2.count (Effect.send 5 "body") = 1 ∧
    (OnProfileComplete (some "body") ⟨{5}, {9}⟩).2.count (Effect.close 5) = 1 ∧
    OnProfile HttpMethod.get "" 6 true (OnProfileComplete (some "body") ⟨{5}, {9}⟩).1 =
      (⟨{6}, {9}⟩,
        [Effect.profilerStartCall kProfileFile true, Effect.registerThread,
          Effect.schedule (30 * 1000) TaskKind.profileComplete]) := by
  have h := onProfileComplete_broadcast_and_reset (some "body")
    (⟨{5}, {9}⟩ : InspectorState)
  refine ⟨h.1, ?_, ?_, ?_⟩
  · have h5 := h.2.2.1 5
    simpa using h5
  · have h5 := h.2.2.2.1 5
    simpa using h5
  · have h6 := h.2.2.2.2 "" 6 true (by decide)
    simpa [GetProfileSeconds, kDefaultProfileSeconds] using h6

/-- **C7.**  When `ProfilerStart` fails on the first-joiner path, `OnProfile`
logs the failure and proceeds: the completion timer is still scheduled for
the requested window, the connection still joins the waiter set, and the
completion task still sends that connection whatever body is available and
closes it. -/
theorem onProfile_proceeds_on_start_failure (p : String) (conn : Nat)
    (st : InspectorState) (hempty : st.connections = ∅)
    (hsec : 0 ≤ GetProfileSeconds p) :
    OnProfile HttpMethod.get p conn false st =
      (⟨insert conn st.connections, st.heapConnections⟩,
        [Effect.profilerStartCall kProfileFile false,
          Effect.logError "ProfilerStart failed",
          Effect.schedule (GetProfileSeconds p * 1000) TaskKind.profileComplete]) ∧
    ∀ readResult : Option String,
      Effect.send conn (readResult.getD "") ∈
        (OnProfileComplete readResult
          (OnProfile HttpMethod.get p conn false st).1).2 ∧
      Effect.close conn ∈
        (OnProfileComplete readResult
          (OnProfile HttpMethod.get p conn false st).1).2 := by
  have hfirst := onProfile_first p conn false st hempty hsec
  have hmem : conn ∈ (insert conn st.connections).sort (· ≤ ·) :=
    (Finset.mem_sort _).mpr (Finset.mem_insert_self _ _)
  constructor
  · rw [hfirst]
    rfl
  · intro readResult
    rw [hfirst]
    simp only [OnProfileComplete, List.mem_append]
    exact ⟨Or.inr (send_mem_broadcast _ _ _ hmem),
      Or.inr (close_mem_broadcast (readResult.getD "") _ _ hmem)⟩

/-- Witness for C7: first joiner (connection 1) with the default window and a
failing `ProfilerStart`; the timer is still scheduled for 30 s, connection 1
still joins, and a failed file read still broadcasts the empty body to it. -/
theorem onProfile_proceeds_on_start_failure_witness :
    OnProfile HttpMethod.get "" 1 false ⟨∅, ∅⟩ =
      (⟨{1}, ∅⟩,
        [Effect.profilerStartCall kProfileFile false,
          Effect.logError "ProfilerStart failed",
          Effect.schedule (30 * 1000) TaskKind.profileComplete]) ∧
    Effect.send 1 "" ∈
      (OnProfileComplete none (OnProfile HttpMethod.get "" 1 false ⟨∅, ∅⟩).1).2 := by
  have h := onProfile_proceeds_on_start_failure "" 1 ⟨∅, ∅⟩ rfl (by decide)
  constructor
  · have h1 := h.1
    simpa [GetProfileSeconds, kDefaultProfileSeconds] using h1
  · have h2 := (h.2 none).1
    simpa using h2

/-- Witness for C2: connection 1 opens a window asking for 60 s and
connection 2 joins asking for 10 s; exactly one start call and one scheduled
task result, and the scheduled delay is the first joiner's 60 s. -/
theorem cpu_window_first_joiner_fixes_timer_witness :
    (runProfile ⟨∅, ∅⟩
      [⟨HttpMethod.get, "60", 1, true⟩, ⟨HttpMethod.get, "10", 2, false⟩]).2.countP
        isSchedule = 1 ∧
    (runProfile ⟨∅, ∅⟩
      [⟨HttpMethod.get, "60", 1, true⟩, ⟨HttpMethod.get, "10", 2, false⟩]).2.countP
        isStartCall = 1 ∧
    (60000 : Int) = GetProfileSeconds "60" * 1000 := by
  have h := cpu_window_first_joiner_fixes_timer ⟨HttpMethod.get, "60", 1, true⟩
    [⟨HttpMethod.get, "10", 2, false⟩] ⟨∅, ∅⟩ rfl rfl (by decide)
  exact ⟨h.1, h.2.1,
    (h.2.2.2 60000 TaskKind.profileComplete (by decide)).1⟩

/-! ### Parsing lemmas -/

theorem isDigit_not_whitespace {c : Char} (h : c.isDigit = true) :
    c.isWhitespace = false := by
  rcases hw : c.isWhitespace with _ | _
  · rfl
  · exfalso
    simp only [Char.isWhitespace, Bool.or_eq_true, decide_eq_true_eq] at hw
    rcases hw with ((h1 | h1) | h1) | h1 <;> subst h1 <;> exact absurd h (by decide)

theorem isDigit_ne_signs {c : Char} (h : c.isDigit = true) :
    c ≠ '-' ∧ c ≠ '+' := by
  constructor <;> rintro rfl <;> exact absurd h (by decide)

theorem takeWhile_all_append (p : Char → Bool) (l₁ l₂ : List Char)
    (h₁ : ∀ c ∈ l₁, p c = true) (h₂ : l₂.takeWhile p = []) :
    (l₁ ++ l₂).takeWhile p = l₁ := by
  induction l₁ with
  | nil => simpa using h₂
  | cons a t ih =>
    have ha : p a = true := h₁ a (by simp)
    simp only [List.cons_append]
    rw [List.takeWhile_cons_of_pos ha, ih (fun c hc => h₁ c (by simp [hc]))]

theorem stoi_digit_prefix (l₁ l₂ : List Char) (h₁ : l₁ ≠ [])
    (hdig : ∀ c ∈ l₁, c.isDigit = true) (h₂ : l₂.takeWhile Char.isDigit = [])
    (hle : (digitsToNat l₁ : Int) ≤ 600) :
    stoi ⟨l₁ ++ l₂⟩ = some ((digitsToNat l₁ : Int)) := by
  obtain ⟨c, t, rfl⟩ := List.exists_cons_of_ne_nil h₁
  have hc : c.isDigit = true := hdig c (by simp)
  have hdrop : ((c :: t) ++ l₂).dropWhile Char.isWhitespace = (c :: t) ++ l₂ := by
    rw [List.cons_append, List.dropWhile_cons]
    simp [isDigit_not_whitespace hc]
  have hhead : ((c :: t) ++ l₂).head? = some c := rfl
  have hminus : ¬ ((c :: t) ++ l₂).head? = some '-' := by
    rw [hhead]
    intro h
    exact (isDigit_ne_signs hc).1 (Option.some.inj h)
  have hplus : ¬ ((c :: t) ++ l₂).head? = some '+' := by
    rw [hhead]
    intro h
    exact (isDigit_ne_signs hc).2 (Option.some.inj h)
  have htake : ((c :: t) ++ l₂).takeWhile Char.isDigit = c :: t :=
    takeWhile_all_append _ _ _ hdig h₂
  have h0 : (0 : Int) ≤ (digitsToNat (c :: t) : Int) := Int.natCast_nonneg _
  simp only [stoi, hdrop, hminus, hplus, or_self, if_neg, if_false, htake]
  rw [if_neg (by simp : ¬ (c :: t) = []), if_neg (by omega), one_mul]

theorem getProfileSeconds_digit_prefix (d r : String) (hd : d.data ≠ [])
    (hdig : ∀ c ∈ d.data, c.isDigit = true)
    (hr : r.data.takeWhile Char.isDigit = [])
    (hle : (digitsToNat d.data : Int) ≤ 600) :
    GetProfileSeconds (d ++ r) = (digitsToNat d.data : Int) := by
  have hne : (d ++ r) ≠ "" := by
    intro h
    apply hd
    have hdata : d.data ++ r.data = [] := by
      rw [← String.data_append, h]
    exact (List.append_eq_nil.mp hdata).1
  have hs : stoi (d ++ r) = some ((digitsToNat d.data : Int)) := by
    have hmk : (d ++ r) = ⟨d.data ++ r.data⟩ := by
      apply String.ext
      simp [String.data_append]
    rw [hmk]
    exact stoi_digit_prefix _ _ hd hdig hr hle
  have h0 : (0 : Int) ≤ (digitsToNat d.data : Int) := Int.natCast_nonneg _
  simp only [GetProfileSeconds, hne, if_neg, if_false, hs, kMaxProfileSeconds]
  exact if_neg (by omega)

/-- **C4.**  `GetProfileSeconds` yields the default 30 on an empty parameter
and the parsed value on a parameter parsing (by `std::stoi`) to a value in
`[0, 600]`; when parsing fails on a nonempty parameter, or the value is
outside `[0, 600]`, `OnProfile` responds with exactly one 400 error and
changes no state — no profiler start, no timer, no waiter added. -/
theorem getProfileSeconds_validation (p : String) (n : Int) (conn : Nat)
    (ok : Bool) (st : InspectorState) :
    GetProfileSeconds "" = 30 ∧
    (stoi p = some n → 0 ≤ n → n ≤ 600 → GetProfileSeconds p = n) ∧
    (stoi p = none → p ≠ "" →
      OnProfile HttpMethod.get p conn ok st =
        (st, [Effect.error400 "Invalid Profile Seconds Parameter"])) ∧
    (stoi p = some n → (n < 0 ∨ 600 < n) →
      OnProfile HttpMethod.get p conn ok st =
        (st, [Effect.error400 "Invalid Profile Seconds Parameter"])) := by
  have herr : ∀ q : String, GetProfileSeconds q = -1 →
      OnProfile HttpMethod.get q conn ok st =
        (st, [Effect.error400 "Invalid Profile Seconds Parameter"]) := by
    intro q hq
    simp [OnProfile, hq]
  refine ⟨rfl, ?_, ?_, ?_⟩
  · intro hs h0 h600
    have hp : p ≠ "" := by
      rintro rfl
      rw [show stoi "" = none from rfl] at hs
      exact Option.noConfusion hs
    simp only [GetProfileSeconds, hp, if_false, hs, kMaxProfileSeconds]
    rw [if_neg (by omega)]
  · intro hs hp
    apply herr
    simp only [GetProfileSeconds, hp, if_false, hs]
  · intro hs hrange
    apply herr
    have hp : p ≠ "" := by
      rintro rfl
      rw [show stoi "" = none from rfl] at hs
      exact Option.noConfusion hs
    simp only [GetProfileSeconds, hp, if_false, hs, kMaxProfileSeconds]
    rw [if_pos (by omega)]

/-- Witness for C4: empty parameter gives 30; "42" gives 42; unparsable "abc"
and out-of-range "601" each yield exactly one 400 error and leave the state
unchanged. -/
theorem getProfileSeconds_validation_witness :
    GetProfileSeconds "" = 30 ∧
    GetProfileSeconds "42" = 42 ∧
    OnProfile HttpMethod.get "abc" 1 true ⟨∅, ∅⟩ =
      (⟨∅, ∅⟩, [Effect.error400 "Invalid Profile Seconds Parameter"]) ∧
    OnProfile HttpMethod.get "601" 1 true ⟨∅, ∅⟩ =
      (⟨∅, ∅⟩, [Effect.error400 "Invalid Profile Seconds Parameter"]) :=
  ⟨(getProfileSeconds_validation "" 0 1 true ⟨∅, ∅⟩).1,
    (getProfileSeconds_validation "42" 42 1 true ⟨∅, ∅⟩).2.1 rfl (by decide)
      (by decide),
    (getProfileSeconds_validation "abc" 0 1 true ⟨∅, ∅⟩).2.2.1 rfl (by decide),
    (getProfileSeconds_validation "601" 601 1 true ⟨∅, ∅⟩).2.2.2 rfl
      (Or.inr (by decide))⟩

/-- **C10.**  A `seconds` parameter made of a decimal-digit prefix whose value
is at most 600 followed by a non-numeric remainder is accepted, not rejected
with 400: the parse yields the prefix's value, and a first-joining request
with that parameter starts the window using exactly that value. -/
theorem onProfile_accepts_numeric_prefix (d r : String) (conn : Nat) (ok : Bool)
    (st : InspectorState) (hd : d.data ≠ [])
    (hdig : ∀ c ∈ d.data, c.isDigit = true)
    (hr : r.data.takeWhile Char.isDigit = [])
    (hle : (digitsToNat d.data : Int) ≤ 600)
    (hempty : st.connections = ∅) :
    GetProfileSeconds (d ++ r) = (digitsToNat d.data : Int) ∧
    OnProfile HttpMethod.get (d ++ r) conn ok st =
      (⟨insert conn st.connections, st.heapConnections⟩,
        (if ok then
          [Effect.profilerStartCall kProfileFile true, Effect.registerThread]
        else
          [Effect.profilerStartCall kProfileFile false,
            Effect.logError "ProfilerStart failed"]) ++
        [Effect.schedule ((digitsToNat d.data : Int) * 1000)
          TaskKind.profileComplete]) := by
  have hg := getProfileSeconds_digit_prefix d r hd hdig hr hle
  have h0 : 0 ≤ GetProfileSeconds (d ++ r) := by
    rw [hg]
    exact Int.natCast_nonneg _
  refine ⟨hg, ?_⟩
  rw [onProfile_first _ _ _ _ hempty h0, hg]

/-- Witness for C10: the parameter "30abc" is accepted with window 30. -/
theorem onProfile_accepts_numeric_prefix_witness :
    GetProfileSeconds "30abc" = 30 ∧
    OnProfile HttpMethod.get "30abc" 1 true ⟨∅, ∅⟩ =
      (⟨insert 1 ∅, ∅⟩,
        [Effect.profilerStartCall kProfileFile true, Effect.registerThread,
          Effect.schedule (30 * 1000) TaskKind.profileComplete]) := by
  have h := onProfile_accepts_numeric_prefix "30" "abc" 1 true ⟨∅, ∅⟩
    (by decide) (by decide) (by decide) (by decide) rfl
  exact ⟨h.1, h.2⟩

end PProf
